import Mathlib

/-!
# Waybar thumbnail cache — verification of the specification

The repository ships the interface of `waybar::util::ThumbnailCache`
(`src/include/util/thumbnail_cache.hpp`): `captureWindow`,
`captureWindowSync`, `getThumbnailPath`, `getMetadata`, `cleanup`,
`isAvailable`, and the private path helpers.  The implementation bodies are
not part of the sources, so every operation below is modelled from the
specification (sections 3, 4.1–4.5, 7 of the spec), with the header fixing
the signatures (`int maxAgeSeconds`, `size_t maxSizeMB`, default arguments,
`void` capture returns).

The cache directory is modelled as a finite association list from window
address to the pair of on-disk files of that entry: the image file (present
or absent, with a byte size) and the metadata sidecar (absent, corrupt, or
parsing to a `ThumbnailMetadata` record).  Wall-clock time is an integer
count of seconds and is passed explicitly (`now`).
-/

namespace Waybar.ThumbnailCacheSpec

/-- The metadata record of one cache entry, mirroring the fields of
`waybar::util::ThumbnailMetadata` in `thumbnail_cache.hpp`; the
`std::chrono::system_clock::time_point` is modelled as seconds since the
epoch. -/
structure ThumbnailMetadata where
  windowAddress : String
  windowClass : String
  windowTitle : String
  workspaceName : String
  timestamp : Int
  width : Int
  height : Int
deriving Repr, DecidableEq

/-- The on-disk metadata sidecar file of an entry: either corrupt (exists
but fails to parse; spec section 7(c)) or parseable.  The `Nat` is the file
size in bytes. -/
inductive MetaFile where
  | corrupt : Nat → MetaFile
  | parsed : ThumbnailMetadata → Nat → MetaFile
deriving Repr, DecidableEq

/-- The on-disk state of one window address: the image file (byte size, if
present) and the metadata sidecar (if present).  A "torn pair" (spec
glossary) is any state where one half is missing or the sidecar is
corrupt. -/
structure Entry where
  image : Option Nat
  meta : Option MetaFile
deriving Repr, DecidableEq

/-- The cache directory: the filesystem itself is the index (spec section
3), modelled as an association list from window address to its entry. -/
abbrev CacheState := List (String × Entry)

/-- Parse the metadata sidecar: a missing or corrupt file yields nothing
(spec section 7(c): parse failure is treated like "entry absent"). -/
def parseMeta : Option MetaFile → Option ThumbnailMetadata
  | some (MetaFile.parsed m _) => some m
  | _ => none

/-- Spec section 3 invariant: an entry is valid only if both the image file
and the metadata file exist and the metadata parses. -/
def entryValid (e : Entry) : Bool :=
  e.image.isSome && (parseMeta e.meta).isSome

/-- Directory lookup of the files stored for a window address. -/
def findEntry : CacheState → String → Option Entry
  | [], _ => none
  | p :: rest, addr => if p.1 = addr then some p.2 else findEntry rest addr

/-- Publish a freshly captured pair for an address, replacing whatever the
directory held for it (spec section 3: a later capture for the same address
overwrites both files as a paired unit). -/
def setEntry (s : CacheState) (addr : String) (e : Entry) : CacheState :=
  (addr, e) :: s.filter (fun p => decide (p.1 ≠ addr))

/-- Modelled from the spec: the cache root directory resolved by the
private member `ThumbnailCache::getCachePath`, whose body is not in the
sources.  Spec section 3: a single root path resolved once per process
lifetime. -/
def getCachePath : String := "/home/user/.cache/waybar/thumbnails"

/-- Modelled from the spec: `ThumbnailCache::getThumbnailFilePath`, whose
body is not in the sources.  Spec section 4.2: the image path is a
deterministic, collision-free, filesystem-safe pure function of the window
address and the fixed cache root. -/
def getThumbnailFilePath (windowAddress : String) : String :=
  getCachePath ++ "/" ++ windowAddress ++ ".png"

/-- Modelled from the spec: `ThumbnailCache::getMetadataFilePath`, whose
body is not in the sources.  Spec section 4.2: the metadata sidecar path,
deterministic and collision-free from the window address. -/
def getMetadataFilePath (windowAddress : String) : String :=
  getCachePath ++ "/" ++ windowAddress ++ ".json"

/-- Modelled from the spec: `ThumbnailCache::getThumbnailPath`, whose body
is not in the sources.  Spec section 4.4: return the image path only if the
metadata file exists, parses successfully, and `now - timestamp ≤
maxAgeSeconds`; combined with the section 3 invariant that a metadata file
without an image is treated as absent (lookup reports not-cached), so the
image file must exist as well.  Read-only: never deletes stale entries. -/
def getThumbnailPath (s : CacheState) (now : Int) (windowAddress : String)
    (maxAgeSeconds : Int) : Option String :=
  match findEntry s windowAddress with
  | none => none
  | some e =>
    if e.image.isSome then
      match parseMeta e.meta with
      | none => none
      | some m =>
        if now - m.timestamp ≤ maxAgeSeconds then
          some (getThumbnailFilePath windowAddress)
        else none
    else none

/-- Modelled from the spec: `ThumbnailCache::getMetadata`, whose body is
not in the sources.  Spec section 4.4: same existence/parse check as
`getThumbnailPath` (both files must exist per the section 3 invariant) but
no age filter. -/
def getMetadata (s : CacheState) (windowAddress : String) :
    Option ThumbnailMetadata :=
  match findEntry s windowAddress with
  | none => none
  | some e => if e.image.isSome then parseMeta e.meta else none

/-- The outcome of one external capture attempt: the tool produced an image
(with the sizes of the files that get written), or it failed (non-zero
exit, timeout, or no output — spec section 4.3). -/
inductive CaptureOutcome where
  | success : Nat → Nat → CaptureOutcome
  | failure : CaptureOutcome
deriving Repr, DecidableEq

/-- The observable result of a capture call: the cache directory after the
call, whether the call succeeded, and whether the external tool was
invoked at all. -/
structure CaptureResult where
  state : CacheState
  succeeded : Bool
  toolInvoked : Bool
deriving Repr, DecidableEq

/-- Modelled from the spec: `ThumbnailCache::captureWindowSync`, whose body
is not in the sources.  Spec sections 4.1, 4.3 and 7: if the capability
probe reports unavailable, a cheap no-op that invokes no tool, writes no
files and never throws; on tool success, image and metadata are written as
a paired unit with `timestamp` = completion time and `width`/`height` = the
requested capture region; on tool failure, any partially written file of
this call is removed before returning, the pre-existing entry for the
address is left untouched, and failure is signalled. -/
def captureWindowSync (available : Bool) (s : CacheState)
    (outcome : CaptureOutcome) (windowAddress : String)
    (x y width height : Int) (windowClass windowTitle workspaceName : String)
    (now : Int) : CaptureResult :=
  if available then
    match outcome with
    | CaptureOutcome.success imgSize metaSize =>
      { state := setEntry s windowAddress
          { image := some imgSize
            meta := some (MetaFile.parsed
              { windowAddress := windowAddress
                windowClass := windowClass
                windowTitle := windowTitle
                workspaceName := workspaceName
                timestamp := now
                width := width
                height := height } metaSize) }
        succeeded := true
        toolInvoked := true }
    | CaptureOutcome.failure =>
      { state := s, succeeded := false, toolInvoked := true }
  else
    { state := s, succeeded := false, toolInvoked := false }

/-- Modelled from the spec: `ThumbnailCache::captureWindow`, whose body is
not in the sources.  Spec sections 4.3 and 5: the asynchronous path does
the same work as the synchronous one (here: its eventual effect on the
directory), except that failure is silent (best-effort) and the caller gets
no completion signal; if the capability probe reports unavailable it is a
no-op that invokes no tool. -/
def captureWindow (available : Bool) (s : CacheState)
    (outcome : CaptureOutcome) (windowAddress : String)
    (x y width height : Int) (windowClass windowTitle workspaceName : String)
    (now : Int) : CaptureResult :=
  captureWindowSync available s outcome windowAddress x y width height
    windowClass windowTitle workspaceName now

/-- Total byte size of the files of one entry. -/
def entrySize (e : Entry) : Nat :=
  (match e.image with
   | some n => n
   | none => 0) +
  (match e.meta with
   | some (MetaFile.corrupt n) => n
   | some (MetaFile.parsed _ n) => n
   | none => 0)

/-- Total on-disk size of the cache directory in bytes. -/
def totalSize (s : CacheState) : Nat :=
  (s.map (fun p => entrySize p.2)).sum

/-- The eviction key of an entry: its capture timestamp (spec section 9:
no access-time tracking exists, so the stored capture timestamp is the LRU
key).  Only consulted on valid entries, where the metadata parses. -/
def entryTimestamp (e : Entry) : Int :=
  match parseMeta e.meta with
  | some m => m.timestamp
  | none => 0

/-- Freshness check of an entry against an age bound (spec glossary):
requires a parseable timestamp. -/
def entryFresh (now maxAge : Int) (e : Entry) : Bool :=
  match parseMeta e.meta with
  | some m => decide (now - m.timestamp ≤ maxAge)
  | none => false

/-- Cleanup step 1 retention predicate: keep an entry only if it is a
valid pair (both files, parseable metadata — orphaned half-pairs and
corrupt sidecars are cleanup candidates, spec sections 3 and 7(c)) and its
age is within the bound (spec section 4.5 step 1). -/
def step1Keep (now maxAge : Int) (e : Entry) : Bool :=
  entryValid e && entryFresh now maxAge e

/-- Oldest-first order on directory entries, by capture timestamp. -/
def tsLE (a b : String × Entry) : Prop :=
  entryTimestamp a.2 ≤ entryTimestamp b.2

instance : DecidableRel tsLE := fun a b =>
  inferInstanceAs (Decidable (entryTimestamp a.2 ≤ entryTimestamp b.2))

instance : IsTotal (String × Entry) tsLE :=
  ⟨fun a b => le_total (entryTimestamp a.2) (entryTimestamp b.2)⟩

instance : IsTrans (String × Entry) tsLE :=
  ⟨fun _ _ _ hab hbc => le_trans hab hbc⟩

/-- Cleanup step 2 loop: with the surviving entries listed oldest first,
repeatedly remove the least-recently-used (smallest-timestamp) entry —
whole entries, never truncating a file — until the total size is under
budget or no entries remain (spec section 4.5 step 2). -/
def evictOldest : CacheState → Nat → CacheState
  | [], _ => []
  | p :: rest, budget =>
    if totalSize (p :: rest) ≤ budget then p :: rest
    else evictOldest rest budget

/-- Modelled from the spec: `ThumbnailCache::cleanup`, whose body is not in
the sources.  Spec section 4.5: (1) scan every entry and remove pairs and
orphaned half-pairs older than `maxAgeSeconds`; (2) if the remaining total
size exceeds the byte budget, repeatedly remove the entry with the smallest
timestamp until under budget or no entries remain.  The size unit is
documented here as decimal megabytes: the budget is
`maxSizeMB * 1000000` bytes (the first alternative of spec section 4.5
step 2). -/
def cleanup (s : CacheState) (now : Int) (maxAgeSeconds : Int)
    (maxSizeMB : Nat) : CacheState :=
  evictOldest
    ((s.filter (fun p => step1Keep now maxAgeSeconds p.2)).insertionSort tsLE)
    (maxSizeMB * 1000000)

/-! ## Concrete states used by witnesses and counterexamples -/

/-- Metadata of the scenario of spec section 8: window `0x55f`, class
`firefox`, title `Example`, workspace `1`, captured at time 0 with a
800×600 region. -/
def exMeta : ThumbnailMetadata :=
  { windowAddress := "0x55f", windowClass := "firefox",
    windowTitle := "Example", workspaceName := "1",
    timestamp := 0, width := 800, height := 600 }

/-- A torn pair: parseable metadata sidecar but no image file. -/
def metaOnlyEntry : Entry :=
  { image := none, meta := some (MetaFile.parsed exMeta 100) }

/-- A torn pair: image file but no metadata sidecar. -/
def imageOnlyEntry : Entry :=
  { image := some 10, meta := none }

/-- Metadata for window `0xb`, captured at time 50. -/
def bMeta : ThumbnailMetadata :=
  { windowAddress := "0xb", windowClass := "c", windowTitle := "t",
    workspaceName := "w", timestamp := 50, width := 1, height := 1 }

/-- A valid entry for window `0xb`: both files present, metadata parses. -/
def bEntry : Entry :=
  { image := some 10, meta := some (MetaFile.parsed bMeta 20) }

/-! ## Helper lemmas -/

theorem findEntry_setEntry_self (s : CacheState) (addr : String) (e : Entry) :
    findEntry (setEntry s addr e) addr = some e := by
  simp [setEntry, findEntry]

theorem findEntry_cons (p : String × Entry) (rest : CacheState) (b : String) :
    findEntry (p :: rest) b = if p.1 = b then some p.2 else findEntry rest b :=
  rfl

theorem findEntry_filter_ne (s : CacheState) (a b : String) (hne : b ≠ a) :
    findEntry (s.filter (fun p => decide (p.1 ≠ a))) b = findEntry s b := by
  induction s with
  | nil => rfl
  | cons p rest ih =>
    by_cases hpa : p.1 = a
    · have hpb : ¬p.1 = b := fun h => hne (by rw [← h, hpa])
      rw [List.filter_cons_of_neg (by simp [hpa]), findEntry_cons, if_neg hpb]
      exact ih
    · rw [List.filter_cons_of_pos (by simp [hpa]), findEntry_cons, findEntry_cons,
        ih]

theorem findEntry_setEntry_ne (s : CacheState) (a b : String) (e : Entry)
    (hne : b ≠ a) :
    findEntry (setEntry s a e) b = findEntry s b := by
  have hab : a ≠ b := fun h => hne h.symm
  simp only [setEntry, findEntry, hab, if_false]
  exact findEntry_filter_ne s a b hne

theorem totalSize_cons (p : String × Entry) (s : CacheState) :
    totalSize (p :: s) = entrySize p.2 + totalSize s := by
  simp [totalSize]

theorem totalSize_evictOldest_le (s : CacheState) (budget : Nat) :
    totalSize (evictOldest s budget) ≤ budget := by
  induction s with
  | nil => simp [evictOldest, totalSize]
  | cons p rest ih =>
    by_cases h : totalSize (p :: rest) ≤ budget
    · simp [evictOldest, h]
    · simpa [evictOldest, h] using ih

theorem evictOldest_suffix (s : CacheState) (budget : Nat) :
    (evictOldest s budget).IsSuffix s := by
  induction s with
  | nil => simp [evictOldest]
  | cons p rest ih =>
    by_cases h : totalSize (p :: rest) ≤ budget
    · simp [evictOldest, h]
    · simp only [evictOldest, h, if_false]
      exact ih.trans (List.suffix_cons p rest)

theorem mem_evictOldest (s : CacheState) (budget : Nat) (q : String × Entry)
    (hq : q ∈ evictOldest s budget) : q ∈ s :=
  (evictOldest_suffix s budget).sublist.mem hq

theorem evictOldest_eq_self (s : CacheState) (budget : Nat)
    (h : totalSize s ≤ budget) : evictOldest s budget = s := by
  cases s with
  | nil => rfl
  | cons p rest => simp [evictOldest, h]

theorem mem_cleanup (s : CacheState) (now maxAge : Int) (maxSizeMB : Nat)
    (p : String × Entry) (hp : p ∈ cleanup s now maxAge maxSizeMB) :
    step1Keep now maxAge p.2 = true := by
  have h₁ : p ∈ (s.filter (fun q => step1Keep now maxAge q.2)).insertionSort tsLE :=
    mem_evictOldest _ _ p hp
  have h₂ : p ∈ s.filter (fun q => step1Keep now maxAge q.2) :=
    (List.mem_insertionSort tsLE).mp h₁
  exact (List.mem_filter.mp h₂).2

theorem cleanup_sorted (s : CacheState) (now maxAge : Int) (maxSizeMB : Nat) :
    (cleanup s now maxAge maxSizeMB).Sorted tsLE := by
  have hs : ((s.filter (fun q => step1Keep now maxAge q.2)).insertionSort
      tsLE).Sorted tsLE := List.sorted_insertionSort tsLE _
  exact List.Pairwise.sublist (evictOldest_suffix _ _).sublist hs

theorem string_affix_inj (pre suf : String) {x y : String}
    (h : pre ++ x ++ suf = pre ++ y ++ suf) : x = y := by
  have hd : (pre ++ x ++ suf).data = (pre ++ y ++ suf).data :=
    congrArg String.data h
  simp only [String.data_append, List.append_assoc] at hd
  have h₁ : x.data ++ suf.data = y.data ++ suf.data :=
    List.append_cancel_left hd
  have h₂ : x.data = y.data := List.append_cancel_right h₁
  cases x
  cases y
  exact congrArg String.mk h₂

theorem png_ne_json (p q : String) : p ++ ".png" ≠ q ++ ".json" := by
  intro h
  have hd : (p ++ ".png").data = (q ++ ".json").data := congrArg String.data h
  have hp : (".png" : String).data = ['.', 'p', 'n', 'g'] := rfl
  have hq : (".json" : String).data = ['.', 'j', 's', 'o', 'n'] := rfl
  rw [String.data_append, String.data_append, hp, hq] at hd
  have hr := congrArg List.reverse hd
  simp only [List.reverse_append] at hr
  have hh := congrArg List.head? hr
  simp at hh

theorem getThumbnailFilePath_inj (a₁ a₂ : String)
    (h : getThumbnailFilePath a₁ = getThumbnailFilePath a₂) : a₁ = a₂ :=
  string_affix_inj (getCachePath ++ "/") ".png"
    (by simpa [getThumbnailFilePath, String.append_assoc] using h)

theorem getMetadataFilePath_inj (a₁ a₂ : String)
    (h : getMetadataFilePath a₁ = getMetadataFilePath a₂) : a₁ = a₂ :=
  string_affix_inj (getCachePath ++ "/") ".json"
    (by simpa [getMetadataFilePath, String.append_assoc] using h)

theorem thumbnail_ne_metadata_path (a₁ a₂ : String) :
    getThumbnailFilePath a₁ ≠ getMetadataFilePath a₂ :=
  png_ne_json (getCachePath ++ "/" ++ a₁) (getCachePath ++ "/" ++ a₂)

/-! ## Claim theorems -/

/-- C1 counterexample: a state whose entry for address `0x55f` has a
parseable, fresh metadata sidecar (`now - timestamp = 0 ≤ 300`) but no
image file.  The claim says `getThumbnailPath` returns the image path
whenever the metadata file exists, parses and is fresh; the model, per the
section 3 invariant, treats the half-pair as absent and returns nothing. -/
theorem c1_counterexample :
    metaOnlyEntry.meta = some (MetaFile.parsed exMeta 100) ∧
    parseMeta metaOnlyEntry.meta = some exMeta ∧
    (0 : Int) - exMeta.timestamp ≤ 300 ∧
    getThumbnailPath [("0x55f", metaOnlyEntry)] 0 "0x55f" 300 = none := by
  refine ⟨rfl, rfl, by decide, by decide⟩

/-- C1 (amended): `getThumbnailPath(windowAddress, maxAgeSeconds)` returns
the image path if and only if the entry's metadata file exists, parses
successfully, the image file exists, and `now - timestamp ≤ maxAgeSeconds`;
in every other case it returns nothing. -/
theorem c1_getThumbnailPath_characterization (s : CacheState) (now : Int)
    (addr : String) (maxAge : Int) :
    (getThumbnailPath s now addr maxAge = some (getThumbnailFilePath addr) ↔
      ∃ e m, findEntry s addr = some e ∧ e.image.isSome = true ∧
        parseMeta e.meta = some m ∧ now - m.timestamp ≤ maxAge) ∧
    (getThumbnailPath s now addr maxAge = none ↔
      ¬∃ e m, findEntry s addr = some e ∧ e.image.isSome = true ∧
        parseMeta e.meta = some m ∧ now - m.timestamp ≤ maxAge) := by
  unfold getThumbnailPath
  cases hfe : findEntry s addr with
  | none => simp
  | some e =>
    by_cases hi : e.image.isSome = true
    · cases hm : parseMeta e.meta with
      | none => simp [hi, hm]
      | some m =>
        by_cases hage : now - m.timestamp ≤ maxAge
        · simp [hi, hm, hage]
          omega
        · simp [hi, hm, hage]
          omega
    · simp [hi]

/-- C5: for a torn pair — the image file missing while metadata exists, the
metadata file missing or corrupt while the image exists, or the entry
absent altogether — both `getThumbnailPath` and `getMetadata` report "not
cached". -/
theorem c5_torn_pair_not_cached (s : CacheState) (addr : String)
    (now maxAge : Int)
    (htorn : ∀ e, findEntry s addr = some e →
      e.image.isSome = false ∨ parseMeta e.meta = none) :
    getThumbnailPath s now addr maxAge = none ∧ getMetadata s addr = none := by
  unfold getThumbnailPath getMetadata
  cases hfe : findEntry s addr with
  | none => exact ⟨rfl, rfl⟩
  | some e =>
    rcases htorn e hfe with hi | hm
    · simp [hi]
    · cases hi : e.image.isSome <;> simp [hi, hm]

/-- C5 witness: an entry for `0xa` holding an image file but no metadata
sidecar is reported as not cached by both lookups. -/
theorem c5_witness :
    getThumbnailPath [("0xa", imageOnlyEntry)] 5 "0xa" 300 = none ∧
    getMetadata [("0xa", imageOnlyEntry)] "0xa" = none := by
  refine c5_torn_pair_not_cached _ "0xa" 5 300 ?_
  intro e he
  have h2 : findEntry [("0xa", imageOnlyEntry)] "0xa" =
      some imageOnlyEntry := by decide
  rw [h2] at he
  obtain rfl := Option.some.inj he
  right
  rfl

/-- C10: the `maxAgeSeconds` parameter is a signed `int`; for every
negative bound, provided the stored timestamp of the address (if any) is
not in the future, `getThumbnailPath` returns nothing, because the age
`now - timestamp` is non-negative and cannot satisfy the bound. -/
theorem c10_negative_maxAge_none (s : CacheState) (now : Int) (addr : String)
    (maxAge : Int) (hneg : maxAge < 0)
    (hts : ∀ e m, findEntry s addr = some e → parseMeta e.meta = some m →
      m.timestamp ≤ now) :
    getThumbnailPath s now addr maxAge = none := by
  unfold getThumbnailPath
  cases hfe : findEntry s addr with
  | none => rfl
  | some e =>
    cases hm : parseMeta e.meta with
    | none => cases hi : e.image.isSome <;> simp [hi, hm]
    | some m =>
      have h1 : m.timestamp ≤ now := hts e m hfe hm
      have h2 : ¬now - m.timestamp ≤ maxAge := by omega
      cases hi : e.image.isSome <;> simp [hi, hm, h2]

/-- C10 witness: a valid entry captured at time 50, looked up at time 100
with `maxAgeSeconds = -1`, is reported as not cached. -/
theorem c10_witness :
    getThumbnailPath [("0xb", bEntry)] 100 "0xb" (-1) = none := by
  refine c10_negative_maxAge_none _ 100 "0xb" (-1) (by decide) ?_
  intro e m he hm
  have h2 : findEntry [("0xb", bEntry)] "0xb" = some bEntry := by decide
  rw [h2] at he
  obtain rfl := Option.some.inj he
  have h3 : m = bMeta := (Option.some.inj hm).symm
  rw [h3]
  decide

/-- C2: immediately after a `captureWindowSync` call succeeds for a window
address, `getThumbnailPath` for that address, evaluated at the same
instant, returns the image path for every `maxAgeSeconds ≥ 0`. -/
theorem c2_sync_success_lookup (available : Bool) (s : CacheState)
    (outcome : CaptureOutcome) (addr : String) (x y width height : Int)
    (cls title ws : String) (now maxAge : Int)
    (hsucc : (captureWindowSync available s outcome addr x y width height
      cls title ws now).succeeded = true)
    (hage : 0 ≤ maxAge) :
    getThumbnailPath (captureWindowSync available s outcome addr x y width
      height cls title ws now).state now addr maxAge =
      some (getThumbnailFilePath addr) := by
  cases available with
  | false => simp [captureWindowSync] at hsucc
  | true =>
    cases outcome with
    | failure => simp [captureWindowSync] at hsucc
    | success imgSize metaSize =>
      simp [captureWindowSync, getThumbnailPath, findEntry_setEntry_self,
        parseMeta, hage]

/-- C2 witness: after a successful synchronous capture of window `0x1` at
time 10, the lookup at time 10 with `maxAgeSeconds = 0` returns the image
path. -/
theorem c2_witness :
    getThumbnailPath (captureWindowSync true [] (CaptureOutcome.success 5 3)
      "0x1" 0 0 800 600 "firefox" "Example" "1" 10).state 10 "0x1" 0 =
      some (getThumbnailFilePath "0x1") :=
  c2_sync_success_lookup true [] (CaptureOutcome.success 5 3) "0x1" 0 0 800
    600 "firefox" "Example" "1" 10 0 (by decide) (by decide)

/-- C7: when `isAvailable()` is false, both `captureWindow` and
`captureWindowSync` are no-ops: the cache state is unchanged, no external
tool is invoked, and the call returns normally without surfacing an
error. -/
theorem c7_unavailable_noop (s : CacheState) (outcome : CaptureOutcome)
    (addr : String) (x y width height : Int) (cls title ws : String)
    (now : Int) :
    captureWindow false s outcome addr x y width height cls title ws now =
      { state := s, succeeded := false, toolInvoked := false } ∧
    captureWindowSync false s outcome addr x y width height cls title ws
      now = { state := s, succeeded := false, toolInvoked := false } :=
  ⟨rfl, rfl⟩

/-- C8: when the external tool invocation of `captureWindowSync` fails
(non-zero exit, timeout or no output), the call signals failure and leaves
the cache directory exactly as it was: no partial file of this call
remains and a pre-existing entry for the address is untouched. -/
theorem c8_sync_failure_no_partials (s : CacheState) (addr : String)
    (x y width height : Int) (cls title ws : String) (now : Int) :
    captureWindowSync true s CaptureOutcome.failure addr x y width height
      cls title ws now =
      { state := s, succeeded := false, toolInvoked := true } :=
  rfl

/-- C9: a capture for window address `a` never creates, modifies or
deletes the files of a distinct address `b` — the directory entry of `b`
is unchanged — and the path mapping is deterministic and collision-free:
distinct addresses never map to the same image or metadata file name, and
an image file name never collides with a metadata file name. -/
theorem c9_capture_isolation (available : Bool) (s : CacheState)
    (outcome : CaptureOutcome) (a b : String) (x y width height : Int)
    (cls title ws : String) (now : Int) (hne : b ≠ a) :
    findEntry (captureWindowSync available s outcome a x y width height
      cls title ws now).state b = findEntry s b ∧
    (∀ a₁ a₂ : String, getThumbnailFilePath a₁ = getThumbnailFilePath a₂ →
      a₁ = a₂) ∧
    (∀ a₁ a₂ : String, getMetadataFilePath a₁ = getMetadataFilePath a₂ →
      a₁ = a₂) ∧
    (∀ a₁ a₂ : String, getThumbnailFilePath a₁ ≠ getMetadataFilePath a₂) := by
  refine ⟨?_, getThumbnailFilePath_inj, getMetadataFilePath_inj,
    thumbnail_ne_metadata_path⟩
  cases available with
  | false => rfl
  | true =>
    cases outcome with
    | failure => rfl
    | success imgSize metaSize => exact findEntry_setEntry_ne s a b _ hne

/-- C9 witness: capturing window `0x1` leaves the (empty) directory entry
of window `0x2` unchanged, and the concrete path mappings are
collision-free. -/
theorem c9_witness :
    findEntry (captureWindowSync true [] (CaptureOutcome.success 5 3) "0x1"
      0 0 800 600 "c" "t" "w" 10).state "0x2" = findEntry [] "0x2" ∧
    (∀ a₁ a₂ : String, getThumbnailFilePath a₁ = getThumbnailFilePath a₂ →
      a₁ = a₂) ∧
    (∀ a₁ a₂ : String, getMetadataFilePath a₁ = getMetadataFilePath a₂ →
      a₁ = a₂) ∧
    (∀ a₁ a₂ : String, getThumbnailFilePath a₁ ≠ getMetadataFilePath a₂) :=
  c9_capture_isolation true [] (CaptureOutcome.success 5 3) "0x1" "0x2" 0 0
    800 600 "c" "t" "w" 10 (by decide)

/-- C3: after `cleanup(maxAgeSeconds = X, maxSizeMB = S)` returns, every
remaining directory entry is a valid pair whose metadata parses and whose
age satisfies `now - timestamp ≤ X`; equivalently, every entry older than
`X` and every orphaned half-pair has been removed. -/
theorem c3_cleanup_age_bound (s : CacheState) (now maxAge : Int)
    (maxSizeMB : Nat) (p : String × Entry)
    (hp : p ∈ cleanup s now maxAge maxSizeMB) :
    entryValid p.2 = true ∧
      ∃ m, parseMeta p.2.meta = some m ∧ now - m.timestamp ≤ maxAge := by
  have hk := mem_cleanup s now maxAge maxSizeMB p hp
  unfold step1Keep at hk
  rw [Bool.and_eq_true] at hk
  refine ⟨hk.1, ?_⟩
  have hf := hk.2
  unfold entryFresh at hf
  cases hm : parseMeta p.2.meta with
  | none => rw [hm] at hf; exact absurd hf (by simp)
  | some m =>
    rw [hm] at hf
    exact ⟨m, rfl, of_decide_eq_true hf⟩

/-- C3 witness: the valid entry for `0xb` captured at time 50 survives
`cleanup(300, 100)` run at time 60, and the theorem certifies it is a
fresh valid pair. -/
theorem c3_witness :
    entryValid bEntry = true ∧
      ∃ m, parseMeta bEntry.meta = some m ∧ (60 : Int) - m.timestamp ≤ 300 :=
  c3_cleanup_age_bound [("0xb", bEntry)] 60 300 100 ("0xb", bEntry)
    (by decide)

/-- C4: after `cleanup(..., maxSizeMB = S)` returns, the total on-disk
size of the remaining entries is at most the documented budget of
`S * 1000000` bytes (decimal megabytes), and size-based removal deleted
whole entries only, oldest first: the surviving directory is a suffix of
the surviving-entry list sorted by ascending timestamp, so the removed
entries are exactly the smallest-timestamp ones and no file was
truncated. -/
theorem c4_cleanup_size_bound (s : CacheState) (now maxAge : Int)
    (maxSizeMB : Nat) :
    totalSize (cleanup s now maxAge maxSizeMB) ≤ maxSizeMB * 1000000 ∧
    (cleanup s now maxAge maxSizeMB).IsSuffix
      ((s.filter (fun p => step1Keep now maxAge p.2)).insertionSort tsLE) :=
  ⟨totalSize_evictOldest_le _ _, evictOldest_suffix _ _⟩

/-- C6: `cleanup` is idempotent — running it a second time with the same
arguments and no intervening captures performs no further deletions and
returns the directory unchanged. -/
theorem c6_cleanup_idempotent (s : CacheState) (now maxAge : Int)
    (maxSizeMB : Nat) :
    cleanup (cleanup s now maxAge maxSizeMB) now maxAge maxSizeMB =
      cleanup s now maxAge maxSizeMB := by
  have hkeep : ∀ p ∈ cleanup s now maxAge maxSizeMB,
      step1Keep now maxAge p.2 = true :=
    fun p hp => mem_cleanup s now maxAge maxSizeMB p hp
  have hfilter : (cleanup s now maxAge maxSizeMB).filter
      (fun p => step1Keep now maxAge p.2) = cleanup s now maxAge maxSizeMB :=
    List.filter_eq_self.mpr hkeep
  have hsorted := cleanup_sorted s now maxAge maxSizeMB
  show evictOldest (((cleanup s now maxAge maxSizeMB).filter
      (fun p => step1Keep now maxAge p.2)).insertionSort tsLE)
      (maxSizeMB * 1000000) = cleanup s now maxAge maxSizeMB
  rw [hfilter, hsorted.insertionSort_eq]
  exact evictOldest_eq_self _ _ (totalSize_evictOldest_le _ _)

end Waybar.ThumbnailCacheSpec
